import Mathlib

set_option autoImplicit false

namespace Alkoteka

/-- A model of parsed JSON values as produced by the json module.
Numbers are modelled as exact rationals. -/
inductive Json where
  | null : Json
  | bool : Bool → Json
  | num : ℚ → Json
  | str : String → Json
  | arr : List Json → Json
  | obj : List (String × Json) → Json

/-- Model of the exceptions the spider code can raise. -/
inductive PyErr where
  | typeError : PyErr
  | valueError : PyErr
  | attributeError : PyErr
  | keyError : PyErr
  | indexError : PyErr
deriving DecidableEq

/-- First-match lookup in an association list; json.loads keeps the last
occurrence of a duplicated key, so dictionaries coming from parsed JSON are
modelled as association lists with distinct keys. -/
def lookupKey : List (String × Json) → String → Option Json
  | [], _ => none
  | (k, v) :: rest, key => if k = key then some v else lookupKey rest key

/-- Pythonic truthiness of a JSON value. -/
def truthy : Json → Bool
  | .null => false
  | .bool b => b
  | .num q => decide (q ≠ 0)
  | .str s => decide (s ≠ "")
  | .arr xs => !xs.isEmpty
  | .obj kvs => !kvs.isEmpty

/-- Model of d.get(key, default): returns the stored value or the default on a
dictionary, and raises AttributeError when the receiver is not a dictionary. -/
def dictGet (j : Json) (key : String) (default : Json) : Except PyErr Json :=
  match j with
  | .obj kvs => .ok ((lookupKey kvs key).getD default)
  | _ => .error .attributeError

example : dictGet (.obj [("a", .num 3)]) "a" .null = .ok (.num 3) := rfl
example : dictGet (.obj [("a", .num 3)]) "b" .null = .ok .null := rfl
example : dictGet (.num 1) "b" .null = .error .attributeError := rfl

@[simp] theorem except_ok_bind {ε α β : Type} (a : α) (f : α → Except ε β) :
    (Except.ok a : Except ε α) >>= f = f a := rfl

@[simp] theorem except_error_bind {ε α β : Type} (e : ε) (f : α → Except ε β) :
    (Except.error e : Except ε α) >>= f = Except.error e := rfl

@[simp] theorem except_pure_eq_ok {ε α : Type} (a : α) :
    (pure a : Except ε α) = Except.ok a := rfl

/-- Model of iteration over a JSON value, as in a for loop: lists yield their
elements, strings their one-character substrings, dictionaries their keys;
anything else raises TypeError. -/
def pyIter : Json → Except PyErr (List Json)
  | .arr xs => .ok xs
  | .str s => .ok (s.toList.map fun c => .str (String.singleton c))
  | .obj kvs => .ok (kvs.map fun kv => .str kv.1)
  | _ => .error .typeError

/-- Model of the subscript v[0]: first element of a list, first character of a
string; a dictionary raises KeyError here (these dictionaries have string keys,
never the integer key 0), anything else TypeError. -/
def pyIndex0 : Json → Except PyErr Json
  | .arr (x :: _) => .ok x
  | .arr [] => .error .indexError
  | .str s =>
    match s.toList with
    | c :: _ => .ok (.str (String.singleton c))
    | [] => .error .indexError
  | .obj _ => .error .keyError
  | _ => .error .typeError

/-- Numeric value of a run of decimal digit characters. -/
def digitsVal (cs : List Char) : ℕ :=
  cs.foldl (fun a c => a * 10 + (c.toNat - 48)) 0

/-- Decimal part of the float(string) model: digits with an optional point, as
in 123, 12., .5 or 1.5.  Exponents, inf and nan are outside the scope of this
development; every string exercised by a theorem below is a plain decimal. -/
def parseDecimalCore (cs : List Char) : Option ℚ :=
  match cs.span Char.isDigit with
  | (intPart, []) => if intPart.isEmpty then none else some (digitsVal intPart)
  | (intPart, '.' :: frac) =>
    if frac.all Char.isDigit && !(intPart.isEmpty && frac.isEmpty) then
      some ((digitsVal intPart : ℚ) + (digitsVal frac : ℚ) / (10 : ℚ) ^ frac.length)
    else none
  | _ => none

/-- Model of float(string): surrounding whitespace stripped, optional sign,
then a plain decimal literal. -/
def parseDecimal (s : String) : Option ℚ :=
  match s.trim.toList with
  | '+' :: rest => parseDecimalCore rest
  | '-' :: rest => (parseDecimalCore rest).map Neg.neg
  | cs => parseDecimalCore cs

/-- Model of int(string): surrounding whitespace stripped, optional sign, then
decimal digits only; a fractional literal raises ValueError. -/
def parseIntStr (s : String) : Option ℤ :=
  match s.trim.toList with
  | '+' :: rest => if !rest.isEmpty && rest.all Char.isDigit then some (digitsVal rest) else none
  | '-' :: rest => if !rest.isEmpty && rest.all Char.isDigit then some (-(digitsVal rest : ℤ)) else none
  | cs => if !cs.isEmpty && cs.all Char.isDigit then some (digitsVal cs) else none

/-- Truncation toward zero, the behaviour of int() on a number. -/
def pyIntTrunc (q : ℚ) : ℤ := if q < 0 then -((-q).floor) else q.floor

/-- Model of float(v) on a JSON value: numbers and booleans convert, strings
are parsed (ValueError on failure), anything else raises TypeError. -/
def pyFloat : Json → Except PyErr ℚ
  | .num q => .ok q
  | .bool b => .ok (if b then 1 else 0)
  | .str s =>
    match parseDecimal s with
    | some q => .ok q
    | none => .error .valueError
  | _ => .error .typeError

/-- Model of int(v) on a JSON value: numbers truncate toward zero, booleans
convert, integer strings parse, anything else (None included) raises. -/
def pyInt : Json → Except PyErr ℤ
  | .num q => .ok (pyIntTrunc q)
  | .bool b => .ok (if b then 1 else 0)
  | .str s =>
    match parseIntStr s with
    | some n => .ok n
    | none => .error .valueError
  | _ => .error .typeError

/-- Model of str(v) as used inside an f-string.  Faithful on strings, booleans
and None; numbers are rendered from the exact rational representation; the
container cases are placeholders, never reached by the theorems below. -/
def pyFormat : Json → String
  | .str s => s
  | .bool true => "True"
  | .bool false => "False"
  | .null => "None"
  | .num q => if q.den = 1 then toString q.num else toString q.num ++ "/" ++ toString q.den
  | .arr _ => "[...]"
  | .obj _ => "<dict>"

/-- Equality of hashable JSON values used as dictionary keys, including the
numeric unification of booleans with 0 and 1. -/
def keyEq : Json → Json → Bool
  | .null, .null => true
  | .bool a, .bool b => a = b
  | .num a, .num b => a = b
  | .str a, .str b => a = b
  | .bool a, .num b => (if a then (1 : ℚ) else 0) = b
  | .num a, .bool b => a = (if b then (1 : ℚ) else 0)
  | _, _ => false

/-- Whether a JSON value may be used as a dictionary key; lists and
dictionaries are unhashable. -/
def hashableKey : Json → Bool
  | .arr _ => false
  | .obj _ => false
  | _ => true

/-- Model of d[k] = v on a dictionary with JSON keys: updates the existing
entry in place, preserving insertion order, or appends a new entry. -/
def setKeyJ : List (Json × Json) → Json → Json → List (Json × Json)
  | [], k, v => [(k, v)]
  | (k', v') :: rest, k, v =>
    if keyEq k' k then (k', v) :: rest else (k', v') :: setKeyJ rest k v

/-- Lookup in a JSON-keyed dictionary model. -/
def lookupJ : List (Json × Json) → Json → Option Json
  | [], _ => none
  | (k', v') :: rest, k => if keyEq k' k then some v' else lookupJ rest k

/-- Equality test of a JSON value against a string literal, the semantics of
the == comparison in the source: only that very string compares equal. -/
def eqStrLit (j : Json) (s : String) : Bool :=
  match j with
  | .str t => t = s
  | _ => false

/-- Loop of build_title: for every filter label whose title is truthy, append
a comma and the formatted title to the name.  The augmented assignment
requires the accumulated name to be a string; a non-string name that reaches
the append is modelled as TypeError (the only receiver the source ever feeds
it is the string default or the name field of the product). -/
def title_fold : Json → List Json → Except PyErr Json
  | name, [] => .ok name
  | name, fl :: rest => do
    let t ← dictGet fl "title" .null
    if truthy t then
      match name with
      | .str s => title_fold (.str (s ++ ", " ++ pyFormat t)) rest
      | _ => .error .typeError
    else title_fold name rest

/-- ProductParser.build_title: base name followed by the truthy filter-label
titles, comma separated, in order. -/
def build_title (product : Json) : Except PyErr Json := do
  let name ← dictGet product "name" (.str "")
  let filter_labels ← dictGet product "filter_labels" (.arr [])
  let labels ← pyIter filter_labels
  title_fold name labels

/-- ProductParser.get_marketing_tags: a new-product tag when the new flag is
truthy, then a gift-wrap tag when the gift_package flag is truthy. -/
def get_marketing_tags (product : Json) : Except PyErr (List String) := do
  let n ← dictGet product "new" .null
  let g ← dictGet product "gift_package" .null
  .ok ((if truthy n then ["Новинка"] else []) ++
       (if truthy g then ["Подарочная упаковка"] else []))

/-- Loop of get_brand: first description block whose code is the string brend
and whose values are truthy contributes the name of its first value; without
such a block the empty string stands. -/
def brand_loop : List Json → Except PyErr Json
  | [] => .ok (.str "")
  | block :: rest => do
    let code ← dictGet block "code" .null
    let values ← dictGet block "values" .null
    if eqStrLit code "brend" && truthy values then do
      let first ← pyIndex0 values
      dictGet first "name" (.str "")
    else brand_loop rest

/-- ProductParser.get_brand. -/
def get_brand (product : Json) : Except PyErr Json := do
  let description_blocks ← dictGet product "description_blocks" (.arr [])
  let blocks ← pyIter description_blocks
  brand_loop blocks

/-- ProductParser.get_section: the parent category name (empty string when the
parent entry is falsy) followed by the category name. -/
def get_section (product : Json) : Except PyErr (List Json) := do
  let category ← dictGet product "category" (.obj [])
  let parentTest ← dictGet category "parent" .null
  let parent_name ←
    if truthy parentTest then do
      let parent ← dictGet category "parent" (.obj [])
      dictGet parent "name" (.str "")
    else
      pure (Json.str "")
  let category_name ← dictGet category "name" (.str "")
  .ok [parent_name, category_name]

/-- The price block of a product record. -/
structure PriceData where
  current : ℚ
  original : ℚ
  sale_tag : String
deriving DecidableEq

/-- The conditional conversion float(v) if v is not None else d of the
source. -/
def floatOrDefault (v : Json) (d : ℚ) : Except PyErr ℚ :=
  match v with
  | .null => .ok d
  | v => pyFloat v

/-- The float conversions of get_price_data: price (default 0) and prev_price
(defaulting to the current price when None or absent), both coerced inside one
try block whose ValueError and TypeError handler resets both to zero. -/
def price_floats (product : Json) : Except PyErr (ℚ × ℚ) := do
  let original_price ← dictGet product "prev_price" .null
  let current_price ← dictGet product "price" (.num 0)
  match floatOrDefault current_price 0 with
  | .error _ => .ok (0, 0)
  | .ok c =>
    match floatOrDefault original_price c with
    | .error _ => .ok (0, 0)
    | .ok o => .ok (c, o)

/-- ProductParser.get_price_data. -/
def get_price_data (product : Json) : Except PyErr PriceData := do
  let cf ← price_floats product
  let has_discount := decide (cf.2 > cf.1 ∧ cf.1 > 0)
  let sale_tag :=
    if has_discount then
      "Скидка " ++ toString (pyIntTrunc ((1 - cf.1 / cf.2) * 100)) ++ "%"
    else ""
  .ok { current := cf.1,
        original := if has_discount then cf.2 else cf.1,
        sale_tag := sale_tag }

/-- Loop of get_metadata over the filter labels: one dictionary write per
label, keyed by its filter code, valued by its title. -/
def metadata_loop : List (Json × Json) → List Json → Except PyErr (List (Json × Json))
  | m, [] => .ok m
  | m, fl :: rest => do
    let k ← dictGet fl "filter" (.str "")
    let v ← dictGet fl "title" (.str "")
    if hashableKey k then metadata_loop (setKeyJ m k v) rest
    else .error .typeError

/-- ProductParser.get_metadata. -/
def get_metadata (product : Json) : Except PyErr (List (Json × Json)) := do
  let text_blocks ← dictGet product "text_blocks" (.arr [])
  let desc ←
    if truthy text_blocks then do
      let first ← pyIndex0 text_blocks
      dictGet first "content" (.str "")
    else
      pure (Json.str "")
  let meta0 := setKeyJ [] (.str "__description") desc
  let article ← dictGet product "vendor_code" .null
  let meta1 := if truthy article then setKeyJ meta0 (.str "article") article else meta0
  let filter_labels ← dictGet product "filter_labels" (.arr [])
  let labels ← pyIter filter_labels
  metadata_loop meta1 labels

/-- The stock block of a product record. -/
structure Stock where
  in_stock : Bool
  count : Json

/-- The asset block of a product record. -/
structure Assets where
  main_image : Json
  set_images : List Json
  view360 : List Json
  video : List Json

/-- The assembled product record, the ProductData dataclass of the source. -/
structure ProductData where
  timestamp : ℤ
  RPC : Json
  url : Json
  title : Json
  marketing_tags : List String
  brand : Json
  «section» : List Json
  price_data : PriceData
  stock : Stock
  assets : Assets
  metadata : List (Json × Json)
  variants : ℤ

/-- ProductParser.parse_product: unwraps the results object (empty dictionary
default) and assembles the record, evaluating the fields in the order the
dataclass call does.  The wall-clock timestamp is passed in explicitly. -/
def parse_product (product_data : Json) (product_url : Json) (now : ℤ) :
    Except PyErr ProductData := do
  let product ← dictGet product_data "results" (.obj [])
  let rpc ← dictGet product "uuid" (.str "")
  let title ← build_title product
  let tags ← get_marketing_tags product
  let brand ← get_brand product
  let sec ← get_section product
  let price ← get_price_data product
  let qt1 ← dictGet product "quantity_total" (.num 0)
  let qtInt ← pyInt qt1
  let qt2 ← dictGet product "quantity_total" (.num 0)
  let img ← dictGet product "image_url" (.str "")
  let meta ← get_metadata product
  .ok { timestamp := now, RPC := rpc, url := product_url, title := title,
        marketing_tags := tags, brand := brand, «section» := sec,
        price_data := price,
        stock := { in_stock := decide (qtInt > 0), count := qt2 },
        assets := { main_image := img, set_images := [], view360 := [], video := [] },
        metadata := meta, variants := 1 }

/-- The fixed city identifier of the site, from BaseAPIBuilder. -/
def CITY_UUID : String := "4a70f9e0-46ae-11e7-83ff-00155d026416"

/-- The fixed API base path, from BaseAPIBuilder. -/
def BASE_API_URL : String := "https://alkoteka.com/web-api/v1"

/-- ProductListAPIBuilder.build_url.  The urlencode call is modelled as plain
concatenation in the fixed parameter order; every slug and number involved
consists of URL-safe characters, so no percent escaping arises. -/
def list_build_url (category_slug : String) (page : ℤ) (per_page : ℤ) : String :=
  BASE_API_URL ++ "/product?city_uuid=" ++ CITY_UUID ++ "&page=" ++ toString page ++
    "&per_page=" ++ toString per_page ++ "&root_category_slug=" ++ category_slug

/-- ProductDetailAPIBuilder.build_url. -/
def detail_build_url (slug : String) : String :=
  BASE_API_URL ++ "/product/" ++ slug ++ "?city_uuid=" ++ CITY_UUID

/-- A request the spider can schedule: a list page carrying its per-request
context (category slug and page number), or a detail page annotated with the
canonical product URL. -/
inductive Request where
  | listPage (url : String) (category_slug : String) (page : ℤ) : Request
  | detailPage (url : String) (product_url : Json) : Request

/-- Whether a request is a list-page request. -/
def isListReq : Request → Bool
  | .listPage _ _ _ => true
  | .detailPage _ _ => false

/-- Whether a request is a detail-page request. -/
def isDetailReq : Request → Bool
  | .listPage _ _ _ => false
  | .detailPage _ _ => true

/-- The log lines the two callbacks can produce. -/
inductive LogEvent where
  | listJsonError : LogEvent
  | detailError : LogEvent
deriving DecidableEq

/-- What one run of parse_product_list yields. -/
structure ListOutput where
  requests : List Request
  logs : List LogEvent

/-- What one run of parse_product_detail yields. -/
structure DetailOutput where
  records : List ProductData
  logs : List LogEvent

/-- The per-item loop of parse_product_list: items with truthy slug and
truthy product_url each yield one detail request; the others are skipped
without a log line. -/
def list_items_loop : List Json → Except PyErr (List Request)
  | [] => .ok []
  | item :: rest => do
    let slug ← dictGet item "slug" .null
    let product_url ← dictGet item "product_url" .null
    if truthy slug && truthy product_url then do
      let rs ← list_items_loop rest
      .ok (.detailPage (detail_build_url (pyFormat slug)) product_url :: rs)
    else
      list_items_loop rest

/-- AlkotekaDetailSpider.parse_product_list.  The body is the json.loads
result, with none standing for a JSONDecodeError, which the callback handles
by logging and spawning nothing.  The category slug and page number are the
per-request meta context. -/
def parse_product_list (body : Option Json) (category_slug : String) (page : ℤ) :
    Except PyErr ListOutput :=
  match body with
  | none => .ok { requests := [], logs := [.listJsonError] }
  | some data => do
    let products ← dictGet data "results" (.arr [])
    let items ← pyIter products
    let detailReqs ← list_items_loop items
    let meta ← dictGet data "meta" (.obj [])
    let flag ← dictGet meta "has_more_pages" .null
    let nexts :=
      if truthy flag then
        [Request.listPage (list_build_url category_slug (page + 1) 20) category_slug (page + 1)]
      else []
    .ok { requests := detailReqs ++ nexts, logs := [] }

/-- AlkotekaDetailSpider.parse_product_detail.  The body is the json.loads
result, with none standing for a JSONDecodeError.  The except clause catches
exactly JSONDecodeError and KeyError; any other exception escapes the
callback. -/
def parse_product_detail (body : Option Json) (meta_product_url : Json) (now : ℤ) :
    Except PyErr DetailOutput :=
  match body with
  | none => .ok { records := [], logs := [.detailError] }
  | some product_data =>
    match parse_product product_data meta_product_url now with
    | .ok pd => .ok { records := [pd], logs := [] }
    | .error .keyError => .ok { records := [], logs := [.detailError] }
    | .error e => .error e

/-- Whether a JSON value is a dictionary. -/
def isObjJ : Json → Bool
  | .obj _ => true
  | _ => false

/-- Whether a JSON value is a string. -/
def isStrJ : Json → Bool
  | .str _ => true
  | _ => false

/-- Whether a JSON value is a number. -/
def isNumJ : Json → Bool
  | .num _ => true
  | _ => false

/-- An optional field satisfies a predicate when present. -/
def optShape (kvs : List (String × Json)) (key : String) (p : Json → Bool) : Bool :=
  match lookupKey kvs key with
  | none => true
  | some v => p v

/-- A list all of whose elements satisfy a predicate. -/
def arrAll (p : Json → Bool) : Json → Bool
  | .arr xs => xs.all p
  | _ => false

/-- A filter label of the expected shape: a dictionary whose filter and title
entries, when present, are strings. -/
def labelShaped (j : Json) : Bool :=
  match j with
  | .obj kvs => optShape kvs "filter" isStrJ && optShape kvs "title" isStrJ
  | _ => false

/-- A description-block value of the expected shape. -/
def valueShaped (j : Json) : Bool :=
  match j with
  | .obj kvs => optShape kvs "name" isStrJ
  | _ => false

/-- A description block of the expected shape. -/
def blockShaped (j : Json) : Bool :=
  match j with
  | .obj kvs => optShape kvs "values" (arrAll valueShaped)
  | _ => false

/-- A parent category of the expected shape: null or a dictionary. -/
def parentShaped (j : Json) : Bool :=
  match j with
  | .null => true
  | .obj kvs => optShape kvs "name" isStrJ
  | _ => false

/-- A category of the expected shape. -/
def categoryShaped (j : Json) : Bool :=
  match j with
  | .obj kvs => optShape kvs "parent" parentShaped && optShape kvs "name" isStrJ
  | _ => false

/-- The shape build_title expects of its input fields. -/
def TitleShaped (j : Json) : Bool :=
  match j with
  | .obj kvs => optShape kvs "name" isStrJ && optShape kvs "filter_labels" (arrAll labelShaped)
  | _ => false

/-- The shape get_brand expects of its input fields. -/
def BrandShaped (j : Json) : Bool :=
  match j with
  | .obj kvs => optShape kvs "description_blocks" (arrAll blockShaped)
  | _ => false

/-- The shape get_section expects of its input fields. -/
def SectionShaped (j : Json) : Bool :=
  match j with
  | .obj kvs => optShape kvs "category" categoryShaped
  | _ => false

/-- The shape the stock assembly expects of its input fields. -/
def StockShaped (j : Json) : Bool :=
  match j with
  | .obj kvs => optShape kvs "quantity_total" isNumJ
  | _ => false

/-- The shape get_metadata expects of its input fields. -/
def MetaShaped (j : Json) : Bool :=
  match j with
  | .obj kvs => optShape kvs "text_blocks" (arrAll isObjJ) && optShape kvs "filter_labels" (arrAll labelShaped)
  | _ => false

/-- A product dictionary all of whose present fields have the shapes the
extractors expect; the fields not constrained here are handled by the source
for any value. -/
def WellShapedProduct (j : Json) : Bool :=
  TitleShaped j && BrandShaped j && SectionShaped j && StockShaped j && MetaShaped j

/-- The name field of a product as a string, empty when absent. -/
def nameOf (product : Json) : String :=
  match product with
  | .obj kvs =>
    match lookupKey kvs "name" with
    | some (.str s) => s
    | _ => ""
  | _ => ""

/-- The filter labels of a product, empty when absent. -/
def labelsOf (product : Json) : List Json :=
  match product with
  | .obj kvs =>
    match lookupKey kvs "filter_labels" with
    | some (.arr xs) => xs
    | _ => []
  | _ => []

/-- The title of a filter label as a string, empty when absent. -/
def labelTitle (l : Json) : String :=
  match l with
  | .obj kvs =>
    match lookupKey kvs "title" with
    | some (.str s) => s
    | _ => ""
  | _ => ""

/-- The filter code of a filter label as a string, empty when absent. -/
def labelFilter (l : Json) : String :=
  match l with
  | .obj kvs =>
    match lookupKey kvs "filter" with
    | some (.str s) => s
    | _ => ""
  | _ => ""

/-- Concatenation of a list of titles, a comma and a space before each. -/
def joinTags : List String → String
  | [] => ""
  | t :: ts => ", " ++ t ++ joinTags ts

/-- The title the specification prescribes: the base name with every
non-empty filter-label title appended, comma separated, in the order given. -/
def spec_build_title (name : String) (titles : List String) : String :=
  name ++ joinTags (titles.filter fun t => decide (t ≠ ""))

/-- The parent category name the specification prescribes for the section
pair: the name inside category.parent, empty when the parent is absent, null
or nameless. -/
def spec_parent_name (product : Json) : String :=
  match product with
  | .obj kvs =>
    match lookupKey kvs "category" with
    | some (.obj ck) =>
      match lookupKey ck "parent" with
      | some (.obj pk) =>
        match lookupKey pk "name" with
        | some (.str s) => s
        | _ => ""
      | _ => ""
    | _ => ""
  | _ => ""

/-- The category name the specification prescribes for the section pair. -/
def spec_category_name (product : Json) : String :=
  match product with
  | .obj kvs =>
    match lookupKey kvs "category" with
    | some (.obj ck) =>
      match lookupKey ck "name" with
      | some (.str s) => s
      | _ => ""
    | _ => ""
  | _ => ""

/-- The content of the first text block of a product, the empty string when
no text blocks exist. -/
def descOf (product : Json) : Json :=
  match product with
  | .obj kvs =>
    match lookupKey kvs "text_blocks" with
    | some (.arr (b :: _)) =>
      match b with
      | .obj bk => (lookupKey bk "content").getD (.str "")
      | _ => .str ""
    | _ => .str ""
  | _ => .str ""

/-- The vendor code of a product when present and truthy. -/
def articleOf (product : Json) : Option Json :=
  match product with
  | .obj kvs =>
    match lookupKey kvs "vendor_code" with
    | some v => if truthy v then some v else none
    | none => none
  | _ => none

/-- The title of the last filter label carrying a given filter code. -/
def lastTitleFor (labels : List Json) (k : String) : Option String :=
  match labels with
  | [] => none
  | l :: rest =>
    match lastTitleFor rest k with
    | some t => some t
    | none => if labelFilter l = k then some (labelTitle l) else none

/-- The raw quantity_total value of a product, zero when absent. -/
def rawQty (product : Json) : Json :=
  match product with
  | .obj kvs => (lookupKey kvs "quantity_total").getD (.num 0)
  | _ => .num 0

/-- The numeric value of the quantity_total field, zero when absent. -/
def qtyNum (product : Json) : ℚ :=
  match rawQty product with
  | .num q => q
  | _ => 0

/-- The request an individual list item produces: one detail request when
both the slug and the canonical URL are present and truthy, none otherwise. -/
def itemRequest (item : Json) : Option Request :=
  match item with
  | .obj kvs =>
    let slug := (lookupKey kvs "slug").getD .null
    let purl := (lookupKey kvs "product_url").getD .null
    if truthy slug && truthy purl then
      some (.detailPage (detail_build_url (pyFormat slug)) purl)
    else none
  | _ => none

/-- The has_more_pages flag of a list response body, for bodies whose meta
entry is a dictionary or absent. -/
def metaFlag (kvs : List (String × Json)) : Option Json :=
  match lookupKey kvs "meta" with
  | some (.obj m) => lookupKey m "has_more_pages"
  | _ => none

/-- The record prescribed for a detail body carrying no usable results
object: every field at its default. -/
def defaultRecord (u : Json) (now : ℤ) : ProductData :=
  { timestamp := now, RPC := .str "", url := u, title := .str "",
    marketing_tags := [], brand := .str "", «section» := [.str "", .str ""],
    price_data := { current := 0, original := 0, sale_tag := "" },
    stock := { in_stock := false, count := .num 0 },
    assets := { main_image := .str "", set_images := [], view360 := [], video := [] },
    metadata := [(.str "__description", .str "")], variants := 1 }

theorem title_fold_str (labels : List Json) (h : labels.all labelShaped = true) (s : String) :
    title_fold (.str s) labels =
      .ok (.str (s ++ joinTags ((labels.map labelTitle).filter fun t => decide (t ≠ "")))) := by
  induction labels generalizing s with
  | nil => simp [title_fold, joinTags]
  | cons l rest ih =>
    simp only [List.all_cons, Bool.and_eq_true] at h
    obtain ⟨hl, hrest⟩ := h
    cases l with
    | obj kvs =>
      simp only [labelShaped, optShape, Bool.and_eq_true] at hl
      obtain ⟨-, htitle⟩ := hl
      cases ht : lookupKey kvs "title" with
      | none =>
        simp [title_fold, dictGet, ht, truthy, labelTitle, ih hrest s]
      | some v =>
        rw [ht] at htitle
        cases v with
        | str t =>
          by_cases he : t = ""
          · subst he
            simp [title_fold, dictGet, ht, truthy, labelTitle, ih hrest s]
          · have step : title_fold (.str s) (Json.obj kvs :: rest) =
                title_fold (.str (s ++ ", " ++ t)) rest := by
              simp [title_fold, dictGet, ht, truthy, he, pyFormat]
            rw [step, ih hrest]
            simp [joinTags, labelTitle, ht, he, String.append_assoc]
        | null => simp [isStrJ] at htitle
        | bool b => simp [isStrJ] at htitle
        | num q => simp [isStrJ] at htitle
        | arr xs => simp [isStrJ] at htitle
        | obj o => simp [isStrJ] at htitle
    | null => simp [labelShaped] at hl
    | bool b => simp [labelShaped] at hl
    | num q => simp [labelShaped] at hl
    | str t => simp [labelShaped] at hl
    | arr xs => simp [labelShaped] at hl

theorem build_title_spec (product : Json) (h : TitleShaped product = true) :
    build_title product =
      .ok (.str (spec_build_title (nameOf product) ((labelsOf product).map labelTitle))) := by
  cases product with
  | obj kvs =>
    simp only [TitleShaped, optShape, Bool.and_eq_true] at h
    obtain ⟨hname, hlabels⟩ := h
    cases hn : lookupKey kvs "name" with
    | none =>
      cases hf : lookupKey kvs "filter_labels" with
      | none =>
        simp [build_title, dictGet, hn, hf, pyIter, nameOf, labelsOf, title_fold_str,
          spec_build_title]
      | some v =>
        rw [hf] at hlabels
        cases v with
        | arr xs =>
          simp only [arrAll] at hlabels
          simp [build_title, dictGet, hn, hf, pyIter, nameOf, labelsOf,
            title_fold_str xs hlabels, spec_build_title]
        | null => simp [arrAll] at hlabels
        | bool b => simp [arrAll] at hlabels
        | num q => simp [arrAll] at hlabels
        | str t => simp [arrAll] at hlabels
        | obj o => simp [arrAll] at hlabels
    | some nv =>
      rw [hn] at hname
      cases nv with
      | str n =>
        cases hf : lookupKey kvs "filter_labels" with
        | none =>
          simp [build_title, dictGet, hn, hf, pyIter, nameOf, labelsOf, title_fold_str,
            spec_build_title]
        | some v =>
          rw [hf] at hlabels
          cases v with
          | arr xs =>
            simp only [arrAll] at hlabels
            simp [build_title, dictGet, hn, hf, pyIter, nameOf, labelsOf,
              title_fold_str xs hlabels, spec_build_title]
          | null => simp [arrAll] at hlabels
          | bool b => simp [arrAll] at hlabels
          | num q => simp [arrAll] at hlabels
          | str t => simp [arrAll] at hlabels
          | obj o => simp [arrAll] at hlabels
      | null => simp [isStrJ] at hname
      | bool b => simp [isStrJ] at hname
      | num q => simp [isStrJ] at hname
      | arr xs => simp [isStrJ] at hname
      | obj o => simp [isStrJ] at hname
  | null => simp [TitleShaped] at h
  | bool b => simp [TitleShaped] at h
  | num q => simp [TitleShaped] at h
  | str t => simp [TitleShaped] at h
  | arr xs => simp [TitleShaped] at h

/-- C5: for every product whose name and filter labels have the expected
shapes, build_title returns the base name with a comma and the title appended
for exactly those filter labels whose title is non-empty, in the order the
labels are given. -/
theorem claim5_build_title (product : Json) (h : TitleShaped product = true) :
    build_title product =
      .ok (.str (spec_build_title (nameOf product) ((labelsOf product).map labelTitle))) :=
  build_title_spec product h

/-- Witness for C5 at the example of the specification: base Vodka with
labels titled 1L, an empty title and Premium yields the two non-empty titles
appended in order. -/
theorem claim5_build_title_witness :
    TitleShaped (.obj [("name", .str "Vodka"),
      ("filter_labels", .arr [.obj [("title", .str "1L")], .obj [("title", .str "")],
        .obj [("title", .str "Premium")]])]) = true ∧
    build_title (.obj [("name", .str "Vodka"),
      ("filter_labels", .arr [.obj [("title", .str "1L")], .obj [("title", .str "")],
        .obj [("title", .str "Premium")]])]) = .ok (.str "Vodka, 1L, Premium") := by
  refine ⟨rfl, ?_⟩
  have h := claim5_build_title (.obj [("name", .str "Vodka"),
    ("filter_labels", .arr [.obj [("title", .str "1L")], .obj [("title", .str "")],
      .obj [("title", .str "Premium")]])]) rfl
  exact h

theorem get_section_spec (product : Json) (h : SectionShaped product = true) :
    get_section product = .ok [.str (spec_parent_name product), .str (spec_category_name product)] := by
  cases product with
  | obj kvs =>
    simp only [SectionShaped, optShape] at h
    cases hc : lookupKey kvs "category" with
    | none =>
      simp [get_section, dictGet, hc, lookupKey, truthy, spec_parent_name, spec_category_name]
    | some c =>
      rw [hc] at h
      cases c with
      | obj ck =>
        simp only [categoryShaped, optShape, Bool.and_eq_true] at h
        obtain ⟨hp, hn⟩ := h
        have hname : ((lookupKey ck "name").getD (.str "")) =
            .str (spec_category_name (.obj kvs)) := by
          cases hnn : lookupKey ck "name" with
          | none => simp [spec_category_name, hc, hnn]
          | some nv =>
            rw [hnn] at hn
            cases nv with
            | str s => simp [spec_category_name, hc, hnn]
            | null => simp [isStrJ] at hn
            | bool b => simp [isStrJ] at hn
            | num q => simp [isStrJ] at hn
            | arr xs => simp [isStrJ] at hn
            | obj o => simp [isStrJ] at hn
        cases hpp : lookupKey ck "parent" with
        | none =>
          simp [get_section, dictGet, hc, hpp, truthy, spec_parent_name, hname]
        | some pv =>
          rw [hpp] at hp
          cases pv with
          | null =>
            simp [get_section, dictGet, hc, hpp, truthy, spec_parent_name, hname]
          | obj pk =>
            cases pk with
            | nil =>
              simp [get_section, dictGet, hc, hpp, truthy, spec_parent_name, lookupKey, hname]
            | cons kv pk' =>
              have htr : truthy (.obj (kv :: pk')) = true := by simp [truthy]
              cases hpn : lookupKey (kv :: pk') "name" with
              | none =>
                simp [get_section, dictGet, hc, hpp, htr, truthy, spec_parent_name, hpn, hname]
              | some nv =>
                simp only [parentShaped, optShape, hpn] at hp
                cases nv with
                | str s =>
                  simp [get_section, dictGet, hc, hpp, htr, truthy, spec_parent_name, hpn, hname]
                | null => simp [isStrJ] at hp
                | bool b => simp [isStrJ] at hp
                | num q => simp [isStrJ] at hp
                | arr xs => simp [isStrJ] at hp
                | obj o => simp [isStrJ] at hp
          | bool b => simp [parentShaped] at hp
          | num q => simp [parentShaped] at hp
          | str t => simp [parentShaped] at hp
          | arr xs => simp [parentShaped] at hp
      | null => simp [categoryShaped] at h
      | bool b => simp [categoryShaped] at h
      | num q => simp [categoryShaped] at h
      | str t => simp [categoryShaped] at h
      | arr xs => simp [categoryShaped] at h
  | null => simp [SectionShaped] at h
  | bool b => simp [SectionShaped] at h
  | num q => simp [SectionShaped] at h
  | str t => simp [SectionShaped] at h
  | arr xs => simp [SectionShaped] at h

theorem pyIntTrunc_eq_floor (q : ℚ) (h : 0 ≤ q) : pyIntTrunc q = ⌊q⌋ := by
  rw [pyIntTrunc, if_neg (not_lt.mpr h), Rat.floor_def']
  exact Rat.floor_def.symm

theorem get_price_data_eq (product : Json) (c o : ℚ)
    (h : price_floats product = .ok (c, o)) :
    get_price_data product =
      .ok { current := c,
            original := if o > c ∧ c > 0 then o else c,
            sale_tag := if o > c ∧ c > 0 then
                "Скидка " ++ toString (pyIntTrunc ((1 - c / o) * 100)) ++ "%"
              else "" } := by
  rw [get_price_data, h]
  simp only [except_ok_bind, decide_eq_true_eq]

/-- C1 (amended): writing c and o for the parsed current and original prices
of the source, the discount is applied iff o > c > 0; when it applies the
result carries c, the true original o, and the sale tag Скидка p% with
p the floor of (1 - c / o) * 100; when it does not apply (including o = c,
c = 0 and o < c) the sale tag is empty and the reported original equals c. -/
theorem claim1_get_price_data (product : Json) (c o : ℚ)
    (h : price_floats product = .ok (c, o)) :
    (o > c ∧ c > 0 →
      get_price_data product =
        .ok { current := c, original := o,
              sale_tag := "Скидка " ++ toString ⌊(1 - c / o) * 100⌋ ++ "%" }) ∧
    (¬(o > c ∧ c > 0) →
      get_price_data product = .ok { current := c, original := c, sale_tag := "" }) := by
  have e := get_price_data_eq product c o h
  constructor
  · intro hd
    have h1 : c / o ≤ 1 := (div_le_one (lt_trans hd.2 hd.1)).mpr (le_of_lt hd.1)
    have hq : (0 : ℚ) ≤ (1 - c / o) * 100 :=
      mul_nonneg (by linarith) (by norm_num)
    rw [e, if_pos hd, if_pos hd, pyIntTrunc_eq_floor _ hq]
  · intro hd
    rw [e, if_neg hd, if_neg hd]

/-- Counterexample to C1 as stated: on a product priced 500 with previous
price 1000 the code emits the sale tag Скидка 50%, the Russian literal of the
source, not the Discount 50% wording the claim prescribes. -/
theorem claim1_counterexample :
    get_price_data (.obj [("price", .num 500), ("prev_price", .num 1000)]) =
      .ok { current := 500, original := 1000, sale_tag := "Скидка 50%" } ∧
    "Скидка 50%" ≠ "Discount 50%" := by
  constructor
  · with_unfolding_all rfl
  · decide

/-- Witness for C1 at the first price example of the specification: current
500, previous 1000, a 50 percent discount. -/
theorem claim1_get_price_data_witness :
    price_floats (.obj [("price", .num 500), ("prev_price", .num 1000)]) = .ok (500, 1000) ∧
    get_price_data (.obj [("price", .num 500), ("prev_price", .num 1000)]) =
      .ok { current := 500, original := 1000,
            sale_tag := "Скидка " ++ toString ⌊((1 : ℚ) - 500 / 1000) * 100⌋ ++ "%" } := by
  refine ⟨rfl, ?_⟩
  exact (claim1_get_price_data (.obj [("price", .num 500), ("prev_price", .num 1000)])
    500 1000 rfl).1 ⟨by decide, by decide⟩

theorem price_floats_ok (kvs : List (String × Json)) :
    ∃ c o, price_floats (.obj kvs) = .ok (c, o) := by
  rw [price_floats]
  simp only [dictGet, except_ok_bind]
  rcases h1 : floatOrDefault ((lookupKey kvs "price").getD (.num 0)) 0 with e | c
  · exact ⟨0, 0, rfl⟩
  · rcases h2 : floatOrDefault ((lookupKey kvs "prev_price").getD .null) c with e | o
    · exact ⟨0, 0, by simp [h2]⟩
    · exact ⟨c, o, by simp [h2]⟩

theorem get_price_data_ok (kvs : List (String × Json)) :
    ∃ p, get_price_data (.obj kvs) = .ok p := by
  obtain ⟨c, o, h⟩ := price_floats_ok kvs
  exact ⟨_, get_price_data_eq (.obj kvs) c o h⟩

theorem brand_loop_ok (blocks : List Json) (h : blocks.all blockShaped = true) :
    ∃ v, brand_loop blocks = .ok v := by
  induction blocks with
  | nil => exact ⟨.str "", rfl⟩
  | cons block rest ih =>
    simp only [List.all_cons, Bool.and_eq_true] at h
    obtain ⟨hb, hrest⟩ := h
    cases block with
    | obj bk =>
      simp only [blockShaped, optShape] at hb
      cases hv : lookupKey bk "values" with
      | none =>
        obtain ⟨v, hvv⟩ := ih hrest
        exact ⟨v, by simp [brand_loop, dictGet, hv, truthy, hvv]⟩
      | some vv =>
        rw [hv] at hb
        cases vv with
        | arr xs =>
          cases xs with
          | nil =>
            obtain ⟨v, hvv⟩ := ih hrest
            exact ⟨v, by simp [brand_loop, dictGet, hv, truthy, hvv]⟩
          | cons x xs' =>
            simp only [arrAll, List.all_cons, Bool.and_eq_true] at hb
            obtain ⟨hx, -⟩ := hb
            cases hcode : eqStrLit ((lookupKey bk "code").getD .null) "brend" with
            | false =>
              obtain ⟨v, hvv⟩ := ih hrest
              exact ⟨v, by simp [brand_loop, dictGet, hv, hcode, hvv]⟩
            | true =>
              cases x with
              | obj xk =>
                exact ⟨(lookupKey xk "name").getD (.str ""),
                  by simp [brand_loop, dictGet, hv, hcode, truthy, pyIndex0]⟩
              | null => simp [valueShaped] at hx
              | bool b => simp [valueShaped] at hx
              | num q => simp [valueShaped] at hx
              | str t => simp [valueShaped] at hx
              | arr ys => simp [valueShaped] at hx
        | null => simp [arrAll] at hb
        | bool b => simp [arrAll] at hb
        | num q => simp [arrAll] at hb
        | str t => simp [arrAll] at hb
        | obj o => simp [arrAll] at hb
    | null => simp [blockShaped] at hb
    | bool b => simp [blockShaped] at hb
    | num q => simp [blockShaped] at hb
    | str t => simp [blockShaped] at hb
    | arr xs => simp [blockShaped] at hb

theorem get_brand_ok (product : Json) (h : BrandShaped product = true) :
    ∃ b, get_brand product = .ok b := by
  cases product with
  | obj kvs =>
    simp only [BrandShaped, optShape] at h
    cases hd : lookupKey kvs "description_blocks" with
    | none =>
      exact ⟨.str "", by simp [get_brand, dictGet, hd, pyIter, brand_loop]⟩
    | some v =>
      rw [hd] at h
      cases v with
      | arr xs =>
        simp only [arrAll] at h
        obtain ⟨b, hb⟩ := brand_loop_ok xs h
        exact ⟨b, by simp [get_brand, dictGet, hd, pyIter, hb]⟩
      | null => simp [arrAll] at h
      | bool b => simp [arrAll] at h
      | num q => simp [arrAll] at h
      | str t => simp [arrAll] at h
      | obj o => simp [arrAll] at h
  | null => simp [BrandShaped] at h
  | bool b => simp [BrandShaped] at h
  | num q => simp [BrandShaped] at h
  | str t => simp [BrandShaped] at h
  | arr xs => simp [BrandShaped] at h

theorem keyEq_str (j : Json) (a : String) (h : keyEq j (.str a) = true) : j = .str a := by
  cases j with
  | str t => simp only [keyEq, decide_eq_true_eq] at h; rw [h]
  | null => simp [keyEq] at h
  | bool b => simp [keyEq] at h
  | num q => simp [keyEq] at h
  | arr xs => simp [keyEq] at h
  | obj o => simp [keyEq] at h

theorem lookupJ_set_eq (m : List (Json × Json)) (a : String) (v : Json) :
    lookupJ (setKeyJ m (.str a) v) (.str a) = some v := by
  induction m with
  | nil => simp [setKeyJ, lookupJ, keyEq]
  | cons kv rest ih =>
    obtain ⟨k', v'⟩ := kv
    by_cases h : keyEq k' (.str a) = true
    · simp [setKeyJ, h, lookupJ]
    · simp [setKeyJ, h, lookupJ, ih]

theorem lookupJ_set_ne (m : List (Json × Json)) (a b : String) (v : Json) (hab : a ≠ b) :
    lookupJ (setKeyJ m (.str a) v) (.str b) = lookupJ m (.str b) := by
  induction m with
  | nil => simp [setKeyJ, lookupJ, keyEq, hab]
  | cons kv rest ih =>
    obtain ⟨k', v'⟩ := kv
    by_cases h : keyEq k' (.str a) = true
    · have hk : k' = .str a := keyEq_str k' a h
      subst hk
      simp [setKeyJ, h, lookupJ, keyEq, hab]
    · cases hkb : keyEq k' (.str b) with
      | true => simp [setKeyJ, h, lookupJ, hkb]
      | false => simp [setKeyJ, h, lookupJ, hkb, ih]

theorem labelShaped_filter_field (lk : List (String × Json)) (h : labelShaped (.obj lk) = true) :
    (lookupKey lk "filter").getD (.str "") = .str (labelFilter (.obj lk)) := by
  simp only [labelShaped, optShape, Bool.and_eq_true] at h
  obtain ⟨hf, -⟩ := h
  cases hfl : lookupKey lk "filter" with
  | none => simp [labelFilter, hfl]
  | some v =>
    rw [hfl] at hf
    cases v with
    | str s => simp [labelFilter, hfl]
    | null => simp [isStrJ] at hf
    | bool b => simp [isStrJ] at hf
    | num q => simp [isStrJ] at hf
    | arr xs => simp [isStrJ] at hf
    | obj o => simp [isStrJ] at hf

theorem labelShaped_title_field (lk : List (String × Json)) (h : labelShaped (.obj lk) = true) :
    (lookupKey lk "title").getD (.str "") = .str (labelTitle (.obj lk)) := by
  simp only [labelShaped, optShape, Bool.and_eq_true] at h
  obtain ⟨-, ht⟩ := h
  cases htl : lookupKey lk "title" with
  | none => simp [labelTitle, htl]
  | some v =>
    rw [htl] at ht
    cases v with
    | str s => simp [labelTitle, htl]
    | null => simp [isStrJ] at ht
    | bool b => simp [isStrJ] at ht
    | num q => simp [isStrJ] at ht
    | arr xs => simp [isStrJ] at ht
    | obj o => simp [isStrJ] at ht

theorem metadata_loop_lookup (labels : List Json) :
    labels.all labelShaped = true →
    ∀ m, ∃ m', metadata_loop m labels = .ok m' ∧
      ∀ k : String, lookupJ m' (.str k) =
        (match lastTitleFor labels k with
         | some t => some (.str t)
         | none => lookupJ m (.str k)) := by
  induction labels with
  | nil =>
    intro _ m
    exact ⟨m, rfl, fun k => rfl⟩
  | cons l rest ih =>
    intro h m
    simp only [List.all_cons, Bool.and_eq_true] at h
    obtain ⟨hl, hrest⟩ := h
    cases l with
    | obj lk =>
      have hk := labelShaped_filter_field lk hl
      have ht := labelShaped_title_field lk hl
      obtain ⟨m', hm', hlook⟩ :=
        ih hrest (setKeyJ m (.str (labelFilter (.obj lk))) (.str (labelTitle (.obj lk))))
      refine ⟨m', ?_, ?_⟩
      · simp [metadata_loop, dictGet, hk, ht, hashableKey, hm']
      · intro k
        rw [hlook k]
        cases hrf : lastTitleFor rest k with
        | some t => simp [lastTitleFor, hrf]
        | none =>
          simp only [lastTitleFor, hrf]
          by_cases hkk : labelFilter (.obj lk) = k
          · rw [if_pos hkk]
            subst hkk
            simp [lookupJ_set_eq]
          · rw [if_neg hkk]
            exact lookupJ_set_ne m _ k _ hkk
    | null => simp [labelShaped] at hl
    | bool b => simp [labelShaped] at hl
    | num q => simp [labelShaped] at hl
    | str t => simp [labelShaped] at hl
    | arr xs => simp [labelShaped] at hl

/-- The dictionary get_metadata has built just before the filter-label loop
runs: the description entry, then the article entry when the vendor code is
present and truthy. -/
def metaBase (kvs : List (String × Json)) : List (Json × Json) :=
  match articleOf (.obj kvs) with
  | some a => setKeyJ (setKeyJ [] (.str "__description") (descOf (.obj kvs))) (.str "article") a
  | none => setKeyJ [] (.str "__description") (descOf (.obj kvs))

theorem labelsOf_shaped (kvs : List (String × Json)) (h : MetaShaped (.obj kvs) = true) :
    (labelsOf (.obj kvs)).all labelShaped = true := by
  simp only [MetaShaped, optShape, Bool.and_eq_true] at h
  obtain ⟨-, hf⟩ := h
  cases hfl : lookupKey kvs "filter_labels" with
  | none => simp [labelsOf, hfl]
  | some v =>
    rw [hfl] at hf
    cases v with
    | arr xs => simpa [labelsOf, hfl, arrAll] using hf
    | null => simp [arrAll] at hf
    | bool b => simp [arrAll] at hf
    | num q => simp [arrAll] at hf
    | str t => simp [arrAll] at hf
    | obj o => simp [arrAll] at hf

theorem get_metadata_run (kvs : List (String × Json)) (h : MetaShaped (.obj kvs) = true) :
    get_metadata (.obj kvs) = metadata_loop (metaBase kvs) (labelsOf (.obj kvs)) := by
  have hsimp : ∀ (d : Json), descOf (.obj kvs) = d →
      (do
        let article ← dictGet (.obj kvs) "vendor_code" .null
        let meta1 := if truthy article = true then
            setKeyJ (setKeyJ [] (.str "__description") d) (.str "article") article
          else setKeyJ [] (.str "__description") d
        let filter_labels ← dictGet (.obj kvs) "filter_labels" (.arr [])
        let labels ← pyIter filter_labels
        metadata_loop meta1 labels) =
      metadata_loop (metaBase kvs) (labelsOf (.obj kvs)) := by
    intro d hd
    simp only [MetaShaped, optShape, Bool.and_eq_true] at h
    obtain ⟨-, hfl⟩ := h
    subst hd
    cases hv : lookupKey kvs "vendor_code" with
    | none =>
      cases hfll : lookupKey kvs "filter_labels" with
      | none => simp [dictGet, hv, hfll, truthy, pyIter, metaBase, articleOf, labelsOf]
      | some fv =>
        rw [hfll] at hfl
        cases fv with
        | arr xs => simp [dictGet, hv, hfll, truthy, pyIter, metaBase, articleOf, labelsOf]
        | null => simp [arrAll] at hfl
        | bool b => simp [arrAll] at hfl
        | num q => simp [arrAll] at hfl
        | str t => simp [arrAll] at hfl
        | obj o => simp [arrAll] at hfl
    | some v =>
      cases htv : truthy v with
      | true =>
        cases hfll : lookupKey kvs "filter_labels" with
        | none => simp [dictGet, hv, hfll, htv, pyIter, metaBase, articleOf, labelsOf]
        | some fv =>
          rw [hfll] at hfl
          cases fv with
          | arr xs => simp [dictGet, hv, hfll, htv, pyIter, metaBase, articleOf, labelsOf]
          | null => simp [arrAll] at hfl
          | bool b => simp [arrAll] at hfl
          | num q => simp [arrAll] at hfl
          | str t => simp [arrAll] at hfl
          | obj o => simp [arrAll] at hfl
      | false =>
        cases hfll : lookupKey kvs "filter_labels" with
        | none => simp [dictGet, hv, hfll, htv, pyIter, metaBase, articleOf, labelsOf]
        | some fv =>
          rw [hfll] at hfl
          cases fv with
          | arr xs => simp [dictGet, hv, hfll, htv, pyIter, metaBase, articleOf, labelsOf]
          | null => simp [arrAll] at hfl
          | bool b => simp [arrAll] at hfl
          | num q => simp [arrAll] at hfl
          | str t => simp [arrAll] at hfl
          | obj o => simp [arrAll] at hfl
  have htb : optShape kvs "text_blocks" (arrAll isObjJ) = true := by
    simp only [MetaShaped, optShape, Bool.and_eq_true] at h
    simpa [optShape] using h.1
  rw [get_metadata]
  cases htbl : lookupKey kvs "text_blocks" with
  | none =>
    have hd : descOf (.obj kvs) = .str "" := by simp [descOf, htbl]
    simpa [dictGet, htbl, truthy] using hsimp (.str "") hd
  | some tv =>
    rw [optShape, htbl] at htb
    cases tv with
    | arr xs =>
      cases xs with
      | nil =>
        have hd : descOf (.obj kvs) = .str "" := by simp [descOf, htbl]
        simpa [dictGet, htbl, truthy] using hsimp (.str "") hd
      | cons b bs =>
        simp only [arrAll, List.all_cons, Bool.and_eq_true] at htb
        obtain ⟨hb, -⟩ := htb
        cases b with
        | obj bk =>
          have hd : descOf (.obj kvs) = (lookupKey bk "content").getD (.str "") := by
            simp [descOf, htbl]
          simpa [dictGet, htbl, truthy, pyIndex0]
            using hsimp ((lookupKey bk "content").getD (.str "")) hd
        | null => simp [isObjJ] at hb
        | bool c => simp [isObjJ] at hb
        | num q => simp [isObjJ] at hb
        | str t => simp [isObjJ] at hb
        | arr ys => simp [isObjJ] at hb
    | null => simp [arrAll] at htb
    | bool b => simp [arrAll] at htb
    | num q => simp [arrAll] at htb
    | str t => simp [arrAll] at htb
    | obj o => simp [arrAll] at htb

theorem metaBase_desc (kvs : List (String × Json)) :
    lookupJ (metaBase kvs) (.str "__description") = some (descOf (.obj kvs)) := by
  rw [metaBase]
  cases articleOf (.obj kvs) with
  | none => simp [setKeyJ, lookupJ, keyEq]
  | some a => simp [setKeyJ, lookupJ, keyEq]

theorem metaBase_article (kvs : List (String × Json)) :
    lookupJ (metaBase kvs) (.str "article") = articleOf (.obj kvs) := by
  rw [metaBase]
  cases articleOf (.obj kvs) with
  | none => simp [setKeyJ, lookupJ, keyEq]
  | some a => simp [setKeyJ, lookupJ, keyEq]

theorem metaBase_other (kvs : List (String × Json)) (k : String)
    (h1 : k ≠ "__description") (h2 : k ≠ "article") :
    lookupJ (metaBase kvs) (.str k) = none := by
  rw [metaBase]
  cases articleOf (.obj kvs) with
  | none => simp [setKeyJ, lookupJ, keyEq, Ne.symm h1]
  | some a => simp [setKeyJ, lookupJ, keyEq, Ne.symm h1, Ne.symm h2]

theorem get_metadata_spec (product : Json) (h : MetaShaped product = true) :
    ∃ m, get_metadata product = .ok m ∧
      (lookupJ m (.str "__description")).isSome = true ∧
      (∀ (k t : String), lastTitleFor (labelsOf product) k = some t →
        lookupJ m (.str k) = some (.str t)) ∧
      (lastTitleFor (labelsOf product) "__description" = none →
        lookupJ m (.str "__description") = some (descOf product)) ∧
      (lastTitleFor (labelsOf product) "article" = none →
        lookupJ m (.str "article") = articleOf product) ∧
      (∀ k : String, k ≠ "__description" → k ≠ "article" →
        lastTitleFor (labelsOf product) k = none → lookupJ m (.str k) = none) := by
  cases product with
  | obj kvs =>
    obtain ⟨m, hm, hlook⟩ :=
      metadata_loop_lookup (labelsOf (.obj kvs)) (labelsOf_shaped kvs h) (metaBase kvs)
    refine ⟨m, ?_, ?_, ?_, ?_, ?_, ?_⟩
    · rw [get_metadata_run kvs h, hm]
    · cases hdt : lastTitleFor (labelsOf (.obj kvs)) "__description" with
      | some t => rw [hlook]; simp [hdt]
      | none => rw [hlook]; simp [hdt, metaBase_desc]
    · intro k t hk
      rw [hlook k, hk]
    · intro hn
      rw [hlook]
      simp [hn, metaBase_desc]
    · intro hn
      rw [hlook]
      simp [hn, metaBase_article]
    · intro k h1 h2 hn
      rw [hlook]
      simp [hn, metaBase_other kvs k h1 h2]
  | null => simp [MetaShaped] at h
  | bool b => simp [MetaShaped] at h
  | num q => simp [MetaShaped] at h
  | str t => simp [MetaShaped] at h
  | arr xs => simp [MetaShaped] at h

/-- Counterexample to C4 as stated: with no text blocks and a single filter
label whose filter code is the literal __description, the resulting map binds
__description to that label title, not to the first-text-block content (the
empty string here) that the claim prescribes unconditionally. -/
theorem claim4_counterexample :
    get_metadata (.obj [("filter_labels",
        .arr [.obj [("filter", .str "__description"), ("title", .str "x")]])]) =
      .ok [(.str "__description", .str "x")] ∧
    Json.str "x" ≠ Json.str "" := by
  refine ⟨rfl, ?_⟩
  simp

/-- C4 (amended): for every product of the expected shapes the metadata map
always contains the key __description; writes happen in order (description,
article, then one entry per filter label, later duplicate codes
overwriting), so a key holds the title of the last filter label carrying it
as filter code, __description holds the first text-block content only when
no label carries that code, article mirrors the present-and-truthy vendor
code only when no label carries that code, and any other key is absent
unless some label carries it. -/
theorem claim4_get_metadata (product : Json) (h : MetaShaped product = true) :
    ∃ m, get_metadata product = .ok m ∧
      (lookupJ m (.str "__description")).isSome = true ∧
      (∀ (k t : String), lastTitleFor (labelsOf product) k = some t →
        lookupJ m (.str k) = some (.str t)) ∧
      (lastTitleFor (labelsOf product) "__description" = none →
        lookupJ m (.str "__description") = some (descOf product)) ∧
      (lastTitleFor (labelsOf product) "article" = none →
        lookupJ m (.str "article") = articleOf product) ∧
      (∀ k : String, k ≠ "__description" → k ≠ "article" →
        lastTitleFor (labelsOf product) k = none → lookupJ m (.str k) = none) :=
  get_metadata_spec product h

/-- Witness for C4 at the duplicate-code example of the specification: two
labels with filter code volume, titled 0.5L then 1L; the later title wins,
and __description is present and empty. -/
theorem claim4_get_metadata_witness :
    MetaShaped (.obj [("filter_labels",
      .arr [.obj [("filter", .str "volume"), ("title", .str "0.5L")],
            .obj [("filter", .str "volume"), ("title", .str "1L")]])]) = true ∧
    ∃ m, get_metadata (.obj [("filter_labels",
        .arr [.obj [("filter", .str "volume"), ("title", .str "0.5L")],
              .obj [("filter", .str "volume"), ("title", .str "1L")]])]) = .ok m ∧
      lookupJ m (.str "volume") = some (.str "1L") ∧
      lookupJ m (.str "__description") = some (.str "") := by
  refine ⟨rfl, ?_⟩
  obtain ⟨m, hm, -, hlast, hdesc, -, -⟩ := claim4_get_metadata (.obj [("filter_labels",
    .arr [.obj [("filter", .str "volume"), ("title", .str "0.5L")],
          .obj [("filter", .str "volume"), ("title", .str "1L")]])]) rfl
  exact ⟨m, hm, hlast "volume" "1L" rfl, hdesc rfl⟩

theorem rat_floor_eq_floor (q : ℚ) : Rat.floor q = ⌊q⌋ := by
  rw [Rat.floor_def']
  exact Rat.floor_def.symm

theorem pyIntTrunc_pos (q : ℚ) : 0 < pyIntTrunc q ↔ 1 ≤ q := by
  rw [pyIntTrunc]
  by_cases hq : q < 0
  · rw [if_pos hq, rat_floor_eq_floor]
    constructor
    · intro hx
      have h0 : 0 ≤ ⌊-q⌋ := Int.floor_nonneg.mpr (by linarith)
      omega
    · intro hx
      linarith
  · rw [if_neg hq, rat_floor_eq_floor]
    constructor
    · intro hx
      have h1 : (1 : ℤ) ≤ ⌊q⌋ := hx
      exact_mod_cast Int.le_floor.mp h1
    · intro hx
      have h1 : (1 : ℤ) ≤ ⌊q⌋ := Int.le_floor.mpr (by exact_mod_cast hx)
      omega

theorem parse_product_ok (product_data product : Json) (u : Json) (now : ℤ)
    (hres : dictGet product_data "results" (.obj []) = .ok product)
    (h : WellShapedProduct product = true) :
    ∃ pd, parse_product product_data u now = .ok pd ∧
      pd.stock = { in_stock := decide (0 < pyIntTrunc (qtyNum product)),
                   count := rawQty product } := by
  simp only [WellShapedProduct, Bool.and_eq_true] at h
  obtain ⟨⟨⟨⟨h1, h2⟩, h3⟩, h4⟩, h5⟩ := h
  cases product with
  | obj pkvs =>
    have hT := build_title_spec (.obj pkvs) h1
    have hB := get_brand_ok (.obj pkvs) h2
    obtain ⟨b, hb⟩ := hB
    have hS := get_section_spec (.obj pkvs) h3
    obtain ⟨p, hp⟩ := get_price_data_ok pkvs
    obtain ⟨m, hm, -⟩ := get_metadata_spec (.obj pkvs) h5
    have hqt : pyInt ((lookupKey pkvs "quantity_total").getD (.num 0)) =
        .ok (pyIntTrunc (qtyNum (.obj pkvs))) ∧
        (lookupKey pkvs "quantity_total").getD (.num 0) = rawQty (.obj pkvs) := by
      simp only [StockShaped, optShape] at h4
      cases hq : lookupKey pkvs "quantity_total" with
      | none => simp [pyInt, rawQty, qtyNum, hq]
      | some v =>
        rw [hq] at h4
        cases v with
        | num q => simp [pyInt, rawQty, qtyNum, hq]
        | null => simp [isNumJ] at h4
        | bool c => simp [isNumJ] at h4
        | str t => simp [isNumJ] at h4
        | arr xs => simp [isNumJ] at h4
        | obj o => simp [isNumJ] at h4
    refine ⟨{ timestamp := now,
              RPC := (lookupKey pkvs "uuid").getD (.str ""),
              url := u,
              title := .str (spec_build_title (nameOf (.obj pkvs))
                ((labelsOf (.obj pkvs)).map labelTitle)),
              marketing_tags :=
                (if truthy ((lookupKey pkvs "new").getD .null) then ["Новинка"] else []) ++
                (if truthy ((lookupKey pkvs "gift_package").getD .null) then
                  ["Подарочная упаковка"] else []),
              brand := b,
              «section» := [.str (spec_parent_name (.obj pkvs)),
                .str (spec_category_name (.obj pkvs))],
              price_data := p,
              stock := { in_stock := decide (0 < pyIntTrunc (qtyNum (.obj pkvs))),
                         count := rawQty (.obj pkvs) },
              assets := { main_image := (lookupKey pkvs "image_url").getD (.str ""),
                          set_images := [], view360 := [], video := [] },
              metadata := m,
              variants := 1 }, ?_, rfl⟩
    have hq1 : pyInt (rawQty (.obj pkvs)) = .ok (pyIntTrunc (qtyNum (.obj pkvs))) := by
      rw [← hqt.2]
      exact hqt.1
    rw [parse_product, hres]
    simp [dictGet, get_marketing_tags, hT, hb, hS, hp, hm, hqt.1, hqt.2, hq1]
  | null => simp [TitleShaped] at h1
  | bool c => simp [TitleShaped] at h1
  | num q => simp [TitleShaped] at h1
  | str t => simp [TitleShaped] at h1
  | arr xs => simp [TitleShaped] at h1

/-- Counterexample to C2 as stated: on the raw product JSON object whose
category field is the number 5, get_section raises AttributeError instead of
returning a value, so the extractors are not total over every raw product
JSON object. -/
theorem claim2_counterexample :
    get_section (.obj [("category", .num 5)]) = .error .attributeError := rfl

/-- C2 (amended): every field-extraction function is total, and the whole
record assembly succeeds, on every product dictionary whose present fields
have the expected JSON shapes; missing keys degrade to empty string, empty
sequence or zero.  A present field of an unexpected shape can raise instead
of degrading. -/
theorem claim2_extractors_total (product : Json) (h : WellShapedProduct product = true) :
    (∃ t, build_title product = .ok t) ∧
    (∃ tags, get_marketing_tags product = .ok tags) ∧
    (∃ b, get_brand product = .ok b) ∧
    (∃ s, get_section product = .ok s) ∧
    (∃ p, get_price_data product = .ok p) ∧
    (∃ m, get_metadata product = .ok m) ∧
    (∀ (u : Json) (now : ℤ), ∃ pd, parse_product (.obj [("results", product)]) u now = .ok pd) := by
  have hws := h
  simp only [WellShapedProduct, Bool.and_eq_true] at h
  obtain ⟨⟨⟨⟨h1, h2⟩, h3⟩, h4⟩, h5⟩ := h
  cases product with
  | obj pkvs =>
    obtain ⟨m, hm, -⟩ := get_metadata_spec (.obj pkvs) h5
    refine ⟨⟨_, build_title_spec (.obj pkvs) h1⟩, ⟨_, rfl⟩, get_brand_ok (.obj pkvs) h2,
      ⟨_, get_section_spec (.obj pkvs) h3⟩, get_price_data_ok pkvs, ⟨m, hm⟩, ?_⟩
    intro u now
    obtain ⟨pd, hpd, -⟩ := parse_product_ok (.obj [("results", .obj pkvs)]) (.obj pkvs) u now
      (by simp [dictGet, lookupKey]) hws
    exact ⟨pd, hpd⟩
  | null => simp [TitleShaped] at h1
  | bool c => simp [TitleShaped] at h1
  | num q => simp [TitleShaped] at h1
  | str t => simp [TitleShaped] at h1
  | arr xs => simp [TitleShaped] at h1

/-- Witness for C2 on a representative well-shaped product carrying a name,
a flag, a category, a quantity and one filter label. -/
theorem claim2_extractors_total_witness :
    WellShapedProduct (.obj [("name", .str "Vodka"), ("new", .bool true),
      ("category", .obj [("name", .str "Vodka")]), ("quantity_total", .num 2),
      ("filter_labels", .arr [.obj [("filter", .str "volume"), ("title", .str "1L")]])]) = true ∧
    ((∃ t, build_title (.obj [("name", .str "Vodka"), ("new", .bool true),
        ("category", .obj [("name", .str "Vodka")]), ("quantity_total", .num 2),
        ("filter_labels", .arr [.obj [("filter", .str "volume"), ("title", .str "1L")]])]) = .ok t) ∧
      (∃ tags, get_marketing_tags (.obj [("name", .str "Vodka"), ("new", .bool true),
        ("category", .obj [("name", .str "Vodka")]), ("quantity_total", .num 2),
        ("filter_labels", .arr [.obj [("filter", .str "volume"), ("title", .str "1L")]])]) = .ok tags) ∧
      (∃ b, get_brand (.obj [("name", .str "Vodka"), ("new", .bool true),
        ("category", .obj [("name", .str "Vodka")]), ("quantity_total", .num 2),
        ("filter_labels", .arr [.obj [("filter", .str "volume"), ("title", .str "1L")]])]) = .ok b) ∧
      (∃ s, get_section (.obj [("name", .str "Vodka"), ("new", .bool true),
        ("category", .obj [("name", .str "Vodka")]), ("quantity_total", .num 2),
        ("filter_labels", .arr [.obj [("filter", .str "volume"), ("title", .str "1L")]])]) = .ok s) ∧
      (∃ p, get_price_data (.obj [("name", .str "Vodka"), ("new", .bool true),
        ("category", .obj [("name", .str "Vodka")]), ("quantity_total", .num 2),
        ("filter_labels", .arr [.obj [("filter", .str "volume"), ("title", .str "1L")]])]) = .ok p) ∧
      (∃ m, get_metadata (.obj [("name", .str "Vodka"), ("new", .bool true),
        ("category", .obj [("name", .str "Vodka")]), ("quantity_total", .num 2),
        ("filter_labels", .arr [.obj [("filter", .str "volume"), ("title", .str "1L")]])]) = .ok m) ∧
      (∀ (u : Json) (now : ℤ), ∃ pd, parse_product (.obj [("results",
        .obj [("name", .str "Vodka"), ("new", .bool true),
        ("category", .obj [("name", .str "Vodka")]), ("quantity_total", .num 2),
        ("filter_labels", .arr [.obj [("filter", .str "volume"), ("title", .str "1L")]])])]) u now
          = .ok pd)) :=
  ⟨rfl, claim2_extractors_total (.obj [("name", .str "Vodka"), ("new", .bool true),
    ("category", .obj [("name", .str "Vodka")]), ("quantity_total", .num 2),
    ("filter_labels", .arr [.obj [("filter", .str "volume"), ("title", .str "1L")]])]) rfl⟩

/-- Counterexample to C7 as stated: a product whose quantity_total is the
fractional number one half is assembled with in_stock false by the code,
although one half is greater than zero, because the source truncates with
int() before comparing. -/
theorem claim7_counterexample :
    (parse_product (.obj [("results", .obj [("quantity_total", .num (1/2))])])
        (.str "u") 0).map (fun pd => pd.stock.in_stock) = .ok false ∧
    (0 : ℚ) < 1/2 := by
  constructor
  · with_unfolding_all rfl
  · norm_num

/-- C7 (amended): for every well-shaped product, the assembled stock block
satisfies in_stock = (int(quantity_total) > 0), that is quantity_total ≥ 1
after truncation, with absent quantity treated as 0, while count is the raw
quantity value passed through uncoerced (0 when absent). -/
theorem claim7_stock (product : Json) (u : Json) (now : ℤ)
    (h : WellShapedProduct product = true) :
    ∃ pd, parse_product (.obj [("results", product)]) u now = .ok pd ∧
      pd.stock.in_stock = decide (1 ≤ qtyNum product) ∧
      pd.stock.count = rawQty product := by
  obtain ⟨pd, hpd, hstock⟩ := parse_product_ok (.obj [("results", product)]) product u now
    (by simp [dictGet, lookupKey]) h
  refine ⟨pd, hpd, ?_, by rw [hstock]⟩
  rw [hstock]
  exact decide_eq_decide.mpr (pyIntTrunc_pos (qtyNum product))

/-- Witness for C7: quantity 3 gives in_stock true and a raw count of 3. -/
theorem claim7_stock_witness :
    ∃ pd, parse_product (.obj [("results", .obj [("quantity_total", .num 3)])])
        (.str "u") 5 = .ok pd ∧
      pd.stock.in_stock = true ∧ pd.stock.count = .num 3 := by
  obtain ⟨pd, hp1, hp2, hp3⟩ := claim7_stock (.obj [("quantity_total", .num 3)]) (.str "u") 5 rfl
  refine ⟨pd, hp1, ?_, hp3⟩
  rw [hp2]
  decide

/-- C9: a detail response whose body is not valid JSON produces zero records
and one error log line, and the callback returns normally, so the failure
cannot affect any other in-flight request. -/
theorem claim9_invalid_detail_body (u : Json) (now : ℤ) :
    parse_product_detail none u now = .ok { records := [], logs := [.detailError] } := rfl

/-- Counterexample to C10 as stated: the body [1, 2] is valid JSON that lacks
the results key, yet the callback raises AttributeError, which the except
clause does not catch, and emits no record instead of a default one. -/
theorem claim10_counterexample :
    parse_product_detail (some (.arr [.num 1, .num 2])) (.str "u") 0 =
      .error .attributeError := rfl

/-- C10 (amended): for every detail body that is a JSON dictionary lacking
the results key, or whose results entry is an empty dictionary, a record is
still assembled and emitted with every field at its default and the url
taken from the canonical URL supplied with the request. -/
theorem claim10_default_record (kvs : List (String × Json)) (u : Json) (now : ℤ)
    (h : lookupKey kvs "results" = none ∨ lookupKey kvs "results" = some (.obj [])) :
    parse_product_detail (some (.obj kvs)) u now =
      .ok { records := [defaultRecord u now], logs := [] } := by
  have hd : dictGet (.obj kvs) "results" (.obj []) = .ok (.obj []) := by
    rcases h with h | h <;> simp [dictGet, h]
  have hp : parse_product (.obj kvs) u now = .ok (defaultRecord u now) := by
    rw [parse_product, hd]
    rfl
  rw [parse_product_detail, hp]

/-- Witness for C10 on a body carrying no results key at all. -/
theorem claim10_default_record_witness :
    parse_product_detail (some (.obj [("other", .num 1)])) (.str "u") 7 =
      .ok { records := [defaultRecord (.str "u") 7], logs := [] } :=
  claim10_default_record [("other", .num 1)] (.str "u") 7 (Or.inl rfl)

theorem itemRequest_detail (item : Json) (r : Request) (h : itemRequest item = some r) :
    isDetailReq r = true ∧ isListReq r = false := by
  cases item with
  | obj kvs =>
    simp only [itemRequest] at h
    by_cases hc : (truthy ((lookupKey kvs "slug").getD .null) &&
        truthy ((lookupKey kvs "product_url").getD .null)) = true
    · rw [if_pos hc] at h
      cases h
      exact ⟨rfl, rfl⟩
    · rw [if_neg hc] at h
      cases h
  | null => simp [itemRequest] at h
  | bool b => simp [itemRequest] at h
  | num q => simp [itemRequest] at h
  | str t => simp [itemRequest] at h
  | arr xs => simp [itemRequest] at h

theorem list_items_loop_eq (items : List Json) (h : items.all isObjJ = true) :
    list_items_loop items = .ok (items.filterMap itemRequest) := by
  induction items with
  | nil => rfl
  | cons item rest ih =>
    simp only [List.all_cons, Bool.and_eq_true] at h
    obtain ⟨hi, hrest⟩ := h
    cases item with
    | obj kvs =>
      cases hs : truthy ((lookupKey kvs "slug").getD .null) with
      | false => simp [list_items_loop, dictGet, itemRequest, hs, ih hrest]
      | true =>
        cases hu : truthy ((lookupKey kvs "product_url").getD .null) with
        | false => simp [list_items_loop, dictGet, itemRequest, hs, hu, ih hrest]
        | true => simp [list_items_loop, dictGet, itemRequest, hs, hu, ih hrest]
    | null => simp [isObjJ] at hi
    | bool b => simp [isObjJ] at hi
    | num q => simp [isObjJ] at hi
    | str t => simp [isObjJ] at hi
    | arr xs => simp [isObjJ] at hi

theorem filterMap_itemRequest_filter (items : List Json) :
    (items.filterMap itemRequest).filter isListReq = [] ∧
    (items.filterMap itemRequest).filter isDetailReq = items.filterMap itemRequest := by
  constructor
  · rw [List.filter_eq_nil_iff]
    intro r hr
    obtain ⟨i, -, hi⟩ := List.mem_filterMap.mp hr
    simp [(itemRequest_detail i r hi).2]
  · rw [List.filter_eq_self]
    intro r hr
    obtain ⟨i, -, hi⟩ := List.mem_filterMap.mp hr
    exact (itemRequest_detail i r hi).1

/-- C3: on a list-page response whose body is a JSON dictionary with a
well-shaped results list and a has_more_pages flag that is absent or a
boolean, the callback spawns a next list-page request, for the same category
with the context page number plus one, exactly when the flag is present and
true; when the flag is false or absent, no list-page request is spawned. -/
theorem claim3_pagination (kvs : List (String × Json)) (items : List Json)
    (slug : String) (page : ℤ)
    (hres : lookupKey kvs "results" = none ∧ items = [] ∨
            lookupKey kvs "results" = some (.arr items))
    (hitems : items.all isObjJ = true)
    (hmeta : lookupKey kvs "meta" = none ∨ ∃ m, lookupKey kvs "meta" = some (.obj m))
    (hflag : ∀ j, metaFlag kvs = some j → ∃ b, j = .bool b) :
    ∃ out, parse_product_list (some (.obj kvs)) slug page = .ok out ∧
      out.logs = [] ∧
      (metaFlag kvs = some (.bool true) →
        out.requests.filter isListReq =
          [.listPage (list_build_url slug (page + 1) 20) slug (page + 1)]) ∧
      (metaFlag kvs ≠ some (.bool true) → out.requests.filter isListReq = []) := by
  have hg : (lookupKey kvs "results").getD (.arr []) = .arr items := by
    rcases hres with ⟨h1, h2⟩ | h1
    · subst h2; simp [h1]
    · simp [h1]
  have hloop := list_items_loop_eq items hitems
  have hnil := (filterMap_itemRequest_filter items).1
  rcases hmeta with hm | ⟨m, hm⟩
  · have hflagv : metaFlag kvs = none := by simp [metaFlag, hm]
    refine ⟨⟨items.filterMap itemRequest, []⟩, ?_, rfl, ?_, fun _ => hnil⟩
    · simp [parse_product_list, dictGet, hg, pyIter, hloop, hm, lookupKey, truthy]
    · intro h; rw [hflagv] at h; cases h
  · have hflagv : metaFlag kvs = lookupKey m "has_more_pages" := by simp [metaFlag, hm]
    cases hf : lookupKey m "has_more_pages" with
    | none =>
      refine ⟨⟨items.filterMap itemRequest, []⟩, ?_, rfl, ?_, fun _ => hnil⟩
      · simp [parse_product_list, dictGet, hg, pyIter, hloop, hm, hf, truthy]
      · intro h; rw [hflagv, hf] at h; cases h
    | some j =>
      obtain ⟨b, rfl⟩ := hflag j (by rw [hflagv, hf])
      cases b with
      | true =>
        refine ⟨⟨items.filterMap itemRequest ++
          [.listPage (list_build_url slug (page + 1) 20) slug (page + 1)], []⟩, ?_, rfl, ?_, ?_⟩
        · simp [parse_product_list, dictGet, hg, pyIter, hloop, hm, hf, truthy]
        · intro _
          rw [List.filter_append, hnil]
          simp [isListReq]
        · intro h
          rw [hflagv, hf] at h
          exact absurd rfl h
      | false =>
        refine ⟨⟨items.filterMap itemRequest, []⟩, ?_, rfl, ?_, fun _ => hnil⟩
        · simp [parse_product_list, dictGet, hg, pyIter, hloop, hm, hf, truthy]
        · intro h
          rw [hflagv, hf] at h
          simp at h

/-- Witness for C3: a second-page response for a category whose flag says no
more pages exist spawns no third-page request. -/
theorem claim3_pagination_witness :
    ∃ out, parse_product_list (some (.obj [("results", .arr []),
        ("meta", .obj [("has_more_pages", .bool false)])])) "krepkiy-alkogol" 2 = .ok out ∧
      out.logs = [] ∧ out.requests.filter isListReq = [] := by
  obtain ⟨out, h1, h2, -, h4⟩ := claim3_pagination
    [("results", .arr []), ("meta", .obj [("has_more_pages", .bool false)])] []
    "krepkiy-alkogol" 2 (Or.inr rfl) rfl
    (Or.inr ⟨[("has_more_pages", .bool false)], rfl⟩)
    (fun j hj => by
      simp [metaFlag, lookupKey] at hj
      exact ⟨false, hj.symm⟩)
  exact ⟨out, h1, h2, h4 (by simp [metaFlag, lookupKey])⟩

/-- Counterexample to C8 as stated: a list item that has both the slug field
(present, the empty string) and the product_url field still produces zero
detail requests, because the source tests truthiness, not presence. -/
theorem claim8_counterexample :
    lookupKey [("slug", Json.str ""), ("product_url", Json.str "u")] "slug" =
      some (.str "") ∧
    lookupKey [("slug", Json.str ""), ("product_url", Json.str "u")] "product_url" =
      some (.str "u") ∧
    parse_product_list (some (.obj [("results",
        .arr [.obj [("slug", .str ""), ("product_url", .str "u")]])])) "c" 1 =
      .ok { requests := [], logs := [] } :=
  ⟨rfl, rfl, rfl⟩

/-- C8 (amended): on a list-page response with a well-shaped results list,
an item missing either its slug or its canonical URL, or carrying a falsy
value for either, is skipped with no detail request and no log line, while
every sibling item whose two fields are present and truthy produces exactly
one detail request, in order. -/
theorem claim8_item_skip (kvs : List (String × Json)) (items : List Json)
    (slug : String) (page : ℤ)
    (hres : lookupKey kvs "results" = some (.arr items))
    (hitems : items.all isObjJ = true)
    (hmeta : lookupKey kvs "meta" = none ∨ ∃ m, lookupKey kvs "meta" = some (.obj m)) :
    ∃ out, parse_product_list (some (.obj kvs)) slug page = .ok out ∧
      out.logs = [] ∧
      out.requests.filter isDetailReq = items.filterMap itemRequest := by
  have hg : (lookupKey kvs "results").getD (.arr []) = .arr items := by simp [hres]
  have hloop := list_items_loop_eq items hitems
  have hself := (filterMap_itemRequest_filter items).2
  obtain ⟨mv, hmv⟩ : ∃ mv, (lookupKey kvs "meta").getD (.obj []) = .obj mv := by
    rcases hmeta with hm | ⟨m, hm⟩
    · exact ⟨[], by simp [hm]⟩
    · exact ⟨m, by simp [hm]⟩
  cases htr : truthy ((lookupKey mv "has_more_pages").getD .null) with
  | true =>
    refine ⟨⟨items.filterMap itemRequest ++
      [.listPage (list_build_url slug (page + 1) 20) slug (page + 1)], []⟩, ?_, rfl, ?_⟩
    · simp [parse_product_list, dictGet, hg, pyIter, hloop, hmv, htr]
    · rw [List.filter_append, hself]
      simp [isDetailReq]
  | false =>
    refine ⟨⟨items.filterMap itemRequest, []⟩, ?_, rfl, hself⟩
    · simp [parse_product_list, dictGet, hg, pyIter, hloop, hmv, htr]

/-- Witness for C8: a page with one valid item and one item lacking its
canonical URL produces exactly one detail request, for the valid item. -/
theorem claim8_item_skip_witness :
    ∃ out, parse_product_list (some (.obj [("results",
        .arr [.obj [("slug", .str "a"), ("product_url", .str "u")],
              .obj [("slug", .str "b")]])])) "c" 1 = .ok out ∧
      out.logs = [] ∧
      out.requests.filter isDetailReq =
        [.detailPage (detail_build_url "a") (.str "u")] := by
  obtain ⟨out, h1, h2, h3⟩ := claim8_item_skip
    [("results", .arr [.obj [("slug", .str "a"), ("product_url", .str "u")],
      .obj [("slug", .str "b")]])]
    [.obj [("slug", .str "a"), ("product_url", .str "u")], .obj [("slug", .str "b")]]
    "c" 1 rfl rfl (Or.inl rfl)
  exact ⟨out, h1, h2, h3⟩

/-- C6: for every product whose category field has the expected shape,
get_section returns exactly the two-element sequence of the parent category
name (the empty string when the parent is absent or null) and the category
name. -/
theorem claim6_get_section (product : Json) (h : SectionShaped product = true) :
    get_section product =
      .ok [.str (spec_parent_name product), .str (spec_category_name product)] :=
  get_section_spec product h

/-- Witness for C6 at the example of the specification: a category named
Vodka with a null parent yields the pair of the empty string and Vodka. -/
theorem claim6_get_section_witness :
    SectionShaped (.obj [("category", .obj [("name", .str "Vodka"), ("parent", .null)])]) = true ∧
    get_section (.obj [("category", .obj [("name", .str "Vodka"), ("parent", .null)])]) =
      .ok [.str "", .str "Vodka"] := by
  refine ⟨rfl, ?_⟩
  exact claim6_get_section (.obj [("category", .obj [("name", .str "Vodka"), ("parent", .null)])]) rfl

end Alkoteka
